import Mathlib

/-!
Verification of the CasaOS-Common init_system package against its
specification.  The Go sources (systemctl.go, openrc.go, and the
package-level selector) are shallowly embedded: external effects
(the systemd D-Bus daemon, subprocess execution, os.Stat) are
modelled as explicit environments, and each Go function becomes a
pure Lean function over such an environment.
-/

set_option maxHeartbeats 1000000

deriving instance DecidableEq for Except

namespace InitSystem

/-! ## Data model (src/unnamed/part_000) -/

/-- Go struct InitService: a service descriptor with a name and a running flag. -/
structure InitService where
  name : String
  running : Bool
  deriving DecidableEq, Repr

/-! ## Result taxonomy (systemctl.go lines 12-46) -/

/-- Go var ResultDone: successful execution of a job. -/
def ResultDone : String := "done"

/-- Go var ResultCanceled. -/
def ResultCanceled : String := "canceled"

/-- Go var ResultTimeout. -/
def ResultTimeout : String := "timeout"

/-- Go var ResultFailed. -/
def ResultFailed : String := "failed"

/-- Go var ResultDependency. -/
def ResultDependency : String := "dependency"

/-- Go var ResultSkipped. -/
def ResultSkipped : String := "skipped"

/-- The distinct package-level error values ErrorCanceled, ErrorTimeout,
ErrorFailed, ErrorDependency, ErrorSkipped and ErrorUnknown of systemctl.go:
in Go each is a distinct errors.New value, so an inductive with one
constructor per value is a faithful model. -/
inductive JobError where
  | canceled
  | timeout
  | failed
  | dependency
  | skipped
  | unknown
  deriving DecidableEq, Repr

/-- Errors escaping a SystemCtl operation: either an error forwarded from the
transport (connection or remote call), or one of the typed job errors. -/
inductive SvcError where
  | transport (e : String)
  | job (e : JobError)
  deriving DecidableEq, Repr

/-- Go var ErrorMap (systemctl.go lines 36-43): maps a job result string to
its error value; "done" maps to nil (here: none). ErrorUnknown is not in the
map; it is returned when the lookup misses. -/
def ErrorMap : List (String × Option JobError) :=
  [(ResultDone, none),
   (ResultCanceled, some .canceled),
   (ResultTimeout, some .timeout),
   (ResultFailed, some .failed),
   (ResultDependency, some .dependency),
   (ResultSkipped, some .skipped)]

/-- The completion-channel resolution that StartService and StopService both
perform on the received result string (systemctl.go lines 217-227 and
248-258): if the result is not "done", look it up in ErrorMap; a miss yields
ErrorUnknown, a hit yields the mapped error value.  none models a nil error. -/
def resolveJobResult (result : String) : Option JobError :=
  if result ≠ ResultDone then
    match ErrorMap.lookup result with
    | none => some .unknown
    | some e => e
  else
    none

/-- The overall outcome of a mutating SystemCtl call that reached the
completion channel, as an Except value. -/
def jobOutcomeToResult (result : String) : Except SvcError Unit :=
  match resolveJobResult result with
  | none => .ok ()
  | some je => .error (.job je)

/-! ## Environment for the D-Bus backend

Each SystemCtl method opens a fresh connection and performs D-Bus calls.
The environment fixes the daemon's responses: `connect` is the outcome of
NewSystemdConnectionContext; `startUnitResult name` combines
StartUnitContext's error with the single string later received on the
completion channel (likewise `stopUnitResult`); `getProperty name prop`
is GetUnitPropertyContext; `getProperties name` is
GetUnitPropertiesContext as a partial map; the two listing fields model
ListUnitFilesContext and ListUnitFilesByPatternsContext, each returning
the unit-file paths. -/
structure DbusEnv where
  connect : Except String Unit
  startUnitResult : String → Except String String
  stopUnitResult : String → Except String String
  getProperty : String → String → Except String String
  getProperties : String → Except String (String → Option String)
  enableUnitFilesCall : String → Except String Unit
  disableUnitFilesCall : String → Except String Unit
  listUnitFiles : Except String (List String)
  listUnitFilesByPatterns : String → Except String (List String)

/-- The D-Bus transactions a SystemCtl call can issue, recorded as a trace so
that theorems can speak about which transactions were (not) issued. -/
inductive DbusAction where
  | startUnit (name : String)
  | stopUnit (name : String)
  | enableUnitFiles (name : String)
  | disableUnitFiles (name : String)
  deriving DecidableEq, Repr

/-- SystemCtl.StartService (systemctl.go lines 199-228): connect, issue the
start transaction with "replace" semantics, receive the single result string
on the completion channel, and resolve it per the taxonomy.  Returns the
call's result together with the trace of issued transactions. -/
def SystemCtl.StartService (env : DbusEnv) (name : String) :
    Except SvcError Unit × List DbusAction :=
  match env.connect with
  | .error e => (.error (.transport e), [])
  | .ok _ =>
    match env.startUnitResult name with
    | .error e => (.error (.transport e), [.startUnit name])
    | .ok result => (jobOutcomeToResult result, [.startUnit name])

/-- SystemCtl.StopService (systemctl.go lines 230-259): identical to
StartService but issuing a stop transaction. -/
def SystemCtl.StopService (env : DbusEnv) (name : String) :
    Except SvcError Unit × List DbusAction :=
  match env.connect with
  | .error e => (.error (.transport e), [])
  | .ok _ =>
    match env.stopUnitResult name with
    | .error e => (.error (.transport e), [.stopUnit name])
    | .ok result => (jobOutcomeToResult result, [.stopUnit name])

/-! ## C1 -/

lemma lookup_ErrorMap_none {r : String}
    (h : r ∉ [ResultDone, ResultCanceled, ResultTimeout, ResultFailed,
              ResultDependency, ResultSkipped]) :
    ErrorMap.lookup r = none := by
  simp only [List.mem_cons, not_or, List.not_mem_nil] at h
  obtain ⟨h1, h2, h3, h4, h5, h6, -⟩ := h
  have e1 : (r == ResultDone) = false := beq_eq_false_iff_ne.mpr h1
  have e2 : (r == ResultCanceled) = false := beq_eq_false_iff_ne.mpr h2
  have e3 : (r == ResultTimeout) = false := beq_eq_false_iff_ne.mpr h3
  have e4 : (r == ResultFailed) = false := beq_eq_false_iff_ne.mpr h4
  have e5 : (r == ResultDependency) = false := beq_eq_false_iff_ne.mpr h5
  have e6 : (r == ResultSkipped) = false := beq_eq_false_iff_ne.mpr h6
  simp [ErrorMap, List.lookup, e1, e2, e3, e4, e5, e6]

/-- C1: For StartService and StopService of the D-Bus backend, the
job-outcome string received on the completion channel resolves as: "done"
yields success; each of "canceled", "timeout", "failed", "dependency",
"skipped" yields its own distinct mapped error; any other string yields the
generic unknown error, never success and never a taxonomy error. -/
theorem C1_job_outcome_resolution (env : DbusEnv) (name r : String)
    (hc : env.connect = .ok ())
    (hstart : env.startUnitResult name = .ok r)
    (hstop : env.stopUnitResult name = .ok r) :
    ((SystemCtl.StartService env name).1 = jobOutcomeToResult r
      ∧ (SystemCtl.StopService env name).1 = jobOutcomeToResult r)
    ∧ jobOutcomeToResult ResultDone = .ok ()
    ∧ jobOutcomeToResult ResultCanceled = .error (.job .canceled)
    ∧ jobOutcomeToResult ResultTimeout = .error (.job .timeout)
    ∧ jobOutcomeToResult ResultFailed = .error (.job .failed)
    ∧ jobOutcomeToResult ResultDependency = .error (.job .dependency)
    ∧ jobOutcomeToResult ResultSkipped = .error (.job .skipped)
    ∧ (r ∉ [ResultDone, ResultCanceled, ResultTimeout, ResultFailed,
            ResultDependency, ResultSkipped] →
        jobOutcomeToResult r = .error (.job .unknown))
    ∧ (Except.error (SvcError.job .unknown) ≠ (Except.ok () : Except SvcError Unit))
    ∧ (SvcError.job .unknown ∉
        [SvcError.job .canceled, SvcError.job .timeout, SvcError.job .failed,
         SvcError.job .dependency, SvcError.job .skipped])
    ∧ ([SvcError.job .canceled, SvcError.job .timeout, SvcError.job .failed,
        SvcError.job .dependency, SvcError.job .skipped].Pairwise (· ≠ ·)) := by
  refine ⟨⟨?_, ?_⟩, by decide, by decide, by decide, by decide, by decide, by decide,
    ?_, by decide, by decide, by decide⟩
  · simp [SystemCtl.StartService, hc, hstart]
  · simp [SystemCtl.StopService, hc, hstop]
  · intro h
    have hne : r ≠ ResultDone := by
      intro hr; exact h (by simp [hr])
    simp [jobOutcomeToResult, resolveJobResult, hne, lookup_ErrorMap_none h]

/-- A concrete environment that completes every job with the
out-of-taxonomy outcome string "exploded". -/
def c1Env : DbusEnv where
  connect := .ok ()
  startUnitResult := fun _ => .ok "exploded"
  stopUnitResult := fun _ => .ok "exploded"
  getProperty := fun _ _ => .ok ""
  getProperties := fun _ => .ok (fun _ => none)
  enableUnitFilesCall := fun _ => .ok ()
  disableUnitFilesCall := fun _ => .ok ()
  listUnitFiles := .ok []
  listUnitFilesByPatterns := fun _ => .ok []

/-- Witness for C1 at a concrete environment and the concrete outcome
string "exploded": both mutating calls return the unknown error. -/
theorem C1_job_outcome_resolution_witness :
    (SystemCtl.StartService c1Env "web.service").1 = .error (.job .unknown)
    ∧ (SystemCtl.StopService c1Env "web.service").1 = .error (.job .unknown) := by
  have h := C1_job_outcome_resolution c1Env "web.service" "exploded" rfl rfl rfl
  have hunk := h.2.2.2.2.2.2.2.1 (by decide)
  exact ⟨h.1.1.trans hunk, h.1.2.trans hunk⟩

/-! ## Command-based backend (openrc.go)

Subprocess results are modelled by `ExecResult`: `ok` is a successful run
of cmd.Output() with the captured stdout bytes; `exitErr` is exec.ExitError
(the process ran and exited non-zero); `execErr` is any other execution
error (binary not found, etc.). -/

inductive ExecResult where
  | ok (out : List Nat)
  | exitErr (code : Nat)
  | execErr (e : String)
  deriving DecidableEq, Repr

/-- Go error values escaping the OpenRc functions: exec.ExitError values,
filepath.Match's ErrBadPattern, or any other error. -/
inductive RcError where
  | exitError (code : Nat)
  | badPattern
  | other (e : String)
  deriving DecidableEq, Repr

/-- The environment of the command-based backend: the outcome of running
/sbin/rc-service with a given argument list. -/
structure RcEnv where
  rcservice : List String → ExecResult

/-- Go type serviceCmd with its four constants cmdStart, cmdStop, cmdList,
cmdStatus (openrc.go lines 12-19). -/
inductive serviceCmd where
  | start
  | stop
  | list
  | status
  deriving DecidableEq, Repr

def cmdStart : serviceCmd := .start

def cmdStop : serviceCmd := .stop

def cmdList : serviceCmd := .list

def cmdStatus : serviceCmd := .status

/-- strings.CutSuffix(s, suffix), first component: s without the ending
suffix when present, s unchanged otherwise. -/
def cutSuffix (s suffix : String) : String :=
  if suffix.data.isSuffixOf s.data then
    String.mk (s.data.take (s.data.length - suffix.data.length))
  else
    s

/-- The argument list RcService (openrc.go lines 98-116) builds for
/sbin/rc-service: "--quiet" for every command except list, the name with a
".service" suffix stripped, and the verb (or "--list"). -/
def rcServiceArgs (name : String) (command : serviceCmd) : List String :=
  let args : List String := if command ≠ cmdList then ["--quiet"] else []
  let name := cutSuffix name ".service"
  match command with
  | .start => args ++ [name, "start"]
  | .stop => args ++ [name, "stop"]
  | .status => args ++ [name, "status"]
  | .list => args ++ ["--list"]

/-- RcService (openrc.go lines 98-125): build the argument list, run
/sbin/rc-service, propagate the error of cmd.Output() unchanged, otherwise
return the captured output bytes. -/
def RcService (env : RcEnv) (name : String) (command : serviceCmd) :
    Except RcError (List Nat) :=
  match env.rcservice (rcServiceArgs name command) with
  | .ok out => .ok out
  | .exitErr c => .error (.exitError c)
  | .execErr e => .error (.other e)

/-- RcServiceStart (openrc.go lines 127-132). -/
def RcServiceStart (env : RcEnv) (name : String) : Except RcError Unit :=
  match RcService env name cmdStart with
  | .error e => .error e
  | .ok _ => .ok ()

/-- RcServiceStop (openrc.go lines 134-139). -/
def RcServiceStop (env : RcEnv) (name : String) : Except RcError Unit :=
  match RcService env name cmdStop with
  | .error e => .error e
  | .ok _ => .ok ()

/-- RcServiceStatus (openrc.go lines 141-151): a nil error means running; an
exec.ExitError means not running with nil error; any other error propagates. -/
def RcServiceStatus (env : RcEnv) (name : String) : Except RcError Bool :=
  match RcService env name cmdStatus with
  | .error e =>
    match e with
    | .exitError _ => .ok false
    | e2 => .error e2
  | .ok _ => .ok true

/-- strings.Split(s, sep) for a single-character separator, on char lists:
Go's Split with a non-empty separator cuts at every occurrence and keeps
empty fields, so the result always has one more element than the number of
separator occurrences. -/
def splitOnChar (c : Char) : List Char → List (List Char)
  | [] => [[]]
  | x :: xs =>
    if x = c then
      [] :: splitOnChar c xs
    else
      match splitOnChar c xs with
      | [] => [[x]]
      | y :: ys => (x :: y) :: ys

/-- strings.Split(s, "\n") on Lean strings. -/
def splitLines (s : String) : List String :=
  (splitOnChar (Char.ofNat 10) s.data).map String.mk

/-- fmt.Sprint applied to a Go []byte value: the default %v formatting of a
byte slice, i.e. the decimal element values, space-separated, in square
brackets — not the bytes decoded as text. -/
def goSprintBytes (out : List Nat) : String :=
  "[" ++ String.intercalate " " (out.map (fun b => toString b)) ++ "]"

/-- RcServiceList (openrc.go lines 153-162): run the list command, convert
the output bytes to a string with fmt.Sprint, and split on newlines. -/
def RcServiceList (env : RcEnv) : Except RcError (List String) :=
  match RcService env "" cmdList with
  | .error e => .error e
  | .ok out => .ok (splitLines (goSprintBytes out))

/-- Modelled from the spec: RcServiceList was meant to split the list
command's output, decoded as text, into its newline-delimited lines
("invokes a list command, splits its output into lines to get raw service
names").  The bytes are decoded as the text they spell. -/
def specListLines (out : List Nat) : List String :=
  splitLines (String.mk (out.map (fun b => Char.ofNat b)))

/-- OpenRc.IsServiceRunning (openrc.go lines 57-59). -/
def OpenRc.IsServiceRunning (env : RcEnv) (name : String) : Except RcError Bool :=
  RcServiceStatus env name

/-- OpenRc.StartService (openrc.go lines 74-76). -/
def OpenRc.StartService (env : RcEnv) (name : String) : Except RcError Unit :=
  RcServiceStart env name

/-- OpenRc.StopService (openrc.go lines 78-80). -/
def OpenRc.StopService (env : RcEnv) (name : String) : Except RcError Unit :=
  RcServiceStop env name

/-- The pattern-filter loop of OpenRc.ListServices (openrc.go lines 27-40):
keep the names filepath.Match accepts, abort on the first match error.  The
matcher is abstract (filepath.Match is standard-library code); an error
models ErrBadPattern. -/
def OpenRc.filterLoop (glob : String → String → Except Unit Bool)
    (pattern : String) : List String → Except Unit (List String)
  | [] => .ok []
  | n :: rest =>
    match glob pattern n with
    | .error e => .error e
    | .ok true =>
      match OpenRc.filterLoop glob pattern rest with
      | .error e => .error e
      | .ok l => .ok (n :: l)
    | .ok false => OpenRc.filterLoop glob pattern rest

/-- The per-name status loop of OpenRc.ListServices (openrc.go lines 42-52):
probe each name in order, abort on the first probe error, and collect one
descriptor per name. -/
def OpenRc.statusLoop (env : RcEnv) : List String → Except RcError (List InitService)
  | [] => .ok []
  | n :: rest =>
    match RcServiceStatus env n with
    | .error e => .error e
    | .ok running =>
      match OpenRc.statusLoop env rest with
      | .error e => .error e
      | .ok svcs => .ok ({ name := n, running := running } :: svcs)

/-- OpenRc.ListServices (openrc.go lines 21-55): get the raw names from
RcServiceList, filter them by the glob pattern unless it is "" or "*", then
probe each remaining name. -/
def OpenRc.ListServices (env : RcEnv) (glob : String → String → Except Unit Bool)
    (pattern : String) : Except RcError (List InitService) :=
  match RcServiceList env with
  | .error e => .error e
  | .ok svcList =>
    if pattern ≠ "" ∧ pattern ≠ "*" then
      match OpenRc.filterLoop glob pattern svcList with
      | .error _ => .error .badPattern
      | .ok filtered => OpenRc.statusLoop env filtered
    else
      OpenRc.statusLoop env svcList

/-! ## C2 -/

/-- An environment whose list command prints the text "foo\u000abar"
(bytes 102 111 111 10 98 97 114) on stdout. -/
def c2Env : RcEnv where
  rcservice := fun args =>
    if args = ["--list"] then .ok [102, 111, 111, 10, 98, 97, 114] else .execErr "unused"

/-- C2: the code does not decode the list output as text.  fmt.Sprint on the
[]byte renders the decimal byte values in brackets, so for output text
"foo\u000abar" RcServiceList returns the single garbage name
"[102 111 111 10 98 97 114]" instead of the text lines "foo", "bar" that the
spec describes. -/
theorem C2_list_lines_bug :
    RcServiceList c2Env = .ok ["[102 111 111 10 98 97 114]"]
    ∧ specListLines [102, 111, 111, 10, 98, 97, 114] = ["foo", "bar"]
    ∧ (["[102 111 111 10 98 97 114]"] : List String) ≠ ["foo", "bar"] := by
  refine ⟨by decide, by decide, by decide⟩

/-! ## C8 -/

/-- C8: OpenRc.IsServiceRunning returns (true, nil) when the status command
exits zero, (false, nil) when it runs but exits non-zero (exec.ExitError),
and propagates any other execution error. -/
theorem C8_status_exit_interpretation (env : RcEnv) (name : String) :
    (∀ out, env.rcservice (rcServiceArgs name cmdStatus) = .ok out →
        OpenRc.IsServiceRunning env name = .ok true)
    ∧ (∀ code, env.rcservice (rcServiceArgs name cmdStatus) = .exitErr code →
        OpenRc.IsServiceRunning env name = .ok false)
    ∧ (∀ e, env.rcservice (rcServiceArgs name cmdStatus) = .execErr e →
        OpenRc.IsServiceRunning env name = .error (.other e)) := by
  refine ⟨?_, ?_, ?_⟩ <;>
    intro x hx <;>
    simp [OpenRc.IsServiceRunning, RcServiceStatus, RcService, hx]

/-- An environment where the status command for "cron" exits with code 3
and every other invocation succeeds. -/
def c8Env : RcEnv where
  rcservice := fun args =>
    if args = ["--quiet", "cron", "status"] then .exitErr 3 else .ok []

/-- Witness for C8: with the status command exiting 3 (failure, not crash),
IsServiceRunning "cron" returns (false, nil). -/
theorem C8_status_exit_interpretation_witness :
    OpenRc.IsServiceRunning c8Env "cron" = .ok false :=
  (C8_status_exit_interpretation c8Env "cron").2.1 3 rfl

/-! ## C9 and C10

strings.CutSuffix strips one occurrence of ".service", so a name ending in
".service.service" is a counterexample to the unrestricted claims: stripping
changes the normalized name the command receives. -/

/-- An environment distinguishing start/stop invocations for "foo" from
every other invocation. -/
def c9Env : RcEnv where
  rcservice := fun args =>
    if args = ["--quiet", "foo", "start"] ∨ args = ["--quiet", "foo", "stop"] then
      .exitErr 1
    else
      .ok []

/-- C9 counterexample: "foo.service.service" ends in ".service", yet
StartService and StopService on it behave differently from the calls on the
suffix-stripped name "foo.service": the issued argument lists differ, and an
environment telling the two argument lists apart yields different results. -/
theorem C9_counterexample :
    ((String.data ".service").isSuffixOf (String.data "foo.service.service") = true)
    ∧ cutSuffix "foo.service.service" ".service" = "foo.service"
    ∧ rcServiceArgs "foo.service.service" cmdStart ≠ rcServiceArgs "foo.service" cmdStart
    ∧ OpenRc.StartService c9Env "foo.service.service" = .ok ()
    ∧ OpenRc.StartService c9Env "foo.service" = .error (.exitError 1)
    ∧ OpenRc.StopService c9Env "foo.service.service" = .ok ()
    ∧ OpenRc.StopService c9Env "foo.service" = .error (.exitError 1) := by
  refine ⟨by decide, by decide, by decide, by decide, by decide, by decide, by decide⟩

lemma cutSuffix_append (base : String) :
    cutSuffix (base ++ ".service") ".service" = base := by
  have hsuf : (String.data ".service").isSuffixOf (base ++ ".service").data = true := by
    rw [List.isSuffixOf_iff_suffix, String.data_append]
    exact List.suffix_append _ _
  unfold cutSuffix
  rw [if_pos hsuf, String.data_append, List.length_append, Nat.add_sub_cancel,
    List.take_left]

lemma cutSuffix_of_not_suffix {base : String}
    (hb : (String.data ".service").isSuffixOf base.data = false) :
    cutSuffix base ".service" = base := by
  simp [cutSuffix, hb]

/-- C9 amended: for every name of the form base ++ ".service" where base
does not itself end in ".service", the command-based StartService and
StopService behave identically on the suffixed and the stripped name: the
same rc-service argument list is built, hence the same result is returned in
every environment. -/
theorem C9_suffix_normalization (env : RcEnv) (base : String)
    (hb : (String.data ".service").isSuffixOf base.data = false) :
    rcServiceArgs (base ++ ".service") cmdStart = rcServiceArgs base cmdStart
    ∧ rcServiceArgs (base ++ ".service") cmdStop = rcServiceArgs base cmdStop
    ∧ OpenRc.StartService env (base ++ ".service") = OpenRc.StartService env base
    ∧ OpenRc.StopService env (base ++ ".service") = OpenRc.StopService env base := by
  have hargs : ∀ c, rcServiceArgs (base ++ ".service") c = rcServiceArgs base c := by
    intro c
    simp only [rcServiceArgs, cutSuffix_append, cutSuffix_of_not_suffix hb]
  refine ⟨hargs _, hargs _, ?_, ?_⟩
  · simp only [OpenRc.StartService, RcServiceStart, RcService, hargs]
  · simp only [OpenRc.StopService, RcServiceStop, RcService, hargs]

/-- Witness for C9 amended, at base "foo" and a concrete environment. -/
theorem C9_suffix_normalization_witness :
    OpenRc.StartService c9Env "foo.service" = OpenRc.StartService c9Env "foo"
    ∧ OpenRc.StopService c9Env "foo.service" = OpenRc.StopService c9Env "foo" := by
  have h := C9_suffix_normalization c9Env "foo" (by decide)
  exact ⟨h.2.2.1, h.2.2.2⟩

/-- An environment distinguishing the status invocation for "foo" from every
other invocation. -/
def c10Env : RcEnv where
  rcservice := fun args =>
    if args = ["--quiet", "foo", "status"] then .exitErr 3 else .ok []

/-- C10 counterexample: "foo.service.service" ends in ".service", yet
IsServiceRunning on it behaves differently from the call on the stripped
name "foo.service" in an environment telling the two status argument lists
apart. -/
theorem C10_counterexample :
    ((String.data ".service").isSuffixOf (String.data "foo.service.service") = true)
    ∧ rcServiceArgs "foo.service.service" cmdStatus ≠ rcServiceArgs "foo.service" cmdStatus
    ∧ OpenRc.IsServiceRunning c10Env "foo.service.service" = .ok true
    ∧ OpenRc.IsServiceRunning c10Env "foo.service" = .ok false := by
  refine ⟨by decide, by decide, by decide, by decide⟩

/-- C10 amended: for every name of the form base ++ ".service" where base
does not itself end in ".service", IsServiceRunning behaves identically on
the suffixed and the stripped name, because the shared builder rcServiceArgs
strips the suffix for every per-service command. -/
theorem C10_status_suffix_normalization (env : RcEnv) (base : String)
    (hb : (String.data ".service").isSuffixOf base.data = false) :
    rcServiceArgs (base ++ ".service") cmdStatus = rcServiceArgs base cmdStatus
    ∧ OpenRc.IsServiceRunning env (base ++ ".service")
        = OpenRc.IsServiceRunning env base := by
  have hargs : rcServiceArgs (base ++ ".service") cmdStatus = rcServiceArgs base cmdStatus := by
    simp only [rcServiceArgs, cutSuffix_append, cutSuffix_of_not_suffix hb]
  refine ⟨hargs, ?_⟩
  simp only [OpenRc.IsServiceRunning, RcServiceStatus, RcService, hargs]

/-- Witness for C10 amended, at base "foo" and a concrete environment. -/
theorem C10_status_suffix_normalization_witness :
    OpenRc.IsServiceRunning c10Env "foo.service" = OpenRc.IsServiceRunning c10Env "foo" :=
  (C10_status_suffix_normalization c10Env "foo" (by decide)).2

/-! ## Backend selector (src/unnamed/part_000, NewInitManager) -/

/-- The outcome of os.Stat("/run/systemd/system/"): the path was found, the
error satisfies os.IsNotExist, or stat failed with some other error. -/
inductive StatResult where
  | found
  | notExist
  | otherError (e : String)
  deriving DecidableEq, Repr

/-- os.IsNotExist on the error of the stat probe: true only for the
not-exist error; false for a nil error and for every other error. -/
def isNotExist : StatResult → Bool
  | .notExist => true
  | _ => false

/-- The two concrete backends NewInitManager can return. -/
inductive BackendKind where
  | systemCtl
  | openRc
  deriving DecidableEq, Repr

/-- NewInitManager (src/unnamed/part_000 lines 23-32): stat the systemd
run-state marker; if the error satisfies os.IsNotExist return the OpenRc
backend, otherwise return the SystemCtl backend. -/
def NewInitManager (stat : StatResult) : BackendKind :=
  if isNotExist stat then .openRc else .systemCtl

/-! ## C3 -/

/-- C3 counterexample: when the stat probe itself fails (an error that is
not os.IsNotExist, e.g. permission denied), NewInitManager returns the
D-Bus backend, not the command-based backend the claim requires. -/
theorem C3_counterexample :
    NewInitManager (.otherError "permission denied") = .systemCtl
    ∧ NewInitManager (.otherError "permission denied") ≠ .openRc := by
  refine ⟨by decide, by decide⟩

/-- C3 amended: the selector instantiates the command-based backend exactly
when the probe reports the marker as not existing; in every other case —
marker present, or the probe failing with any other error — it instantiates
the D-Bus backend; it always returns one of the two backends. -/
theorem C3_selector (stat : StatResult) :
    (NewInitManager stat = .openRc ↔ stat = .notExist)
    ∧ NewInitManager .found = .systemCtl
    ∧ (NewInitManager stat = .systemCtl ∨ NewInitManager stat = .openRc) := by
  refine ⟨?_, by decide, ?_⟩ <;> cases stat <;> simp [NewInitManager, isNotExist]

/-! ## Remaining SystemCtl operations -/

/-- SystemCtl.IsServiceRunning (systemctl.go lines 119-137): connect, read
the ActiveState property, report whether it equals "active". -/
def SystemCtl.IsServiceRunning (env : DbusEnv) (name : String) :
    Except String Bool :=
  match env.connect with
  | .error e => .error e
  | .ok _ =>
    match env.getProperty name "ActiveState" with
    | .error e => .error e
    | .ok v => .ok (v = "active")

/-- SystemCtl.EnableService (systemctl.go lines 139-167): connect, issue an
enable-unit-files transaction, re-read ActiveState, and if it is not
"active" return the result of StartService; otherwise succeed. -/
def SystemCtl.EnableService (env : DbusEnv) (name : String) :
    Except SvcError Unit × List DbusAction :=
  match env.connect with
  | .error e => (.error (.transport e), [])
  | .ok _ =>
    match env.enableUnitFilesCall name with
    | .error e => (.error (.transport e), [.enableUnitFiles name])
    | .ok _ =>
      match env.getProperty name "ActiveState" with
      | .error e => (.error (.transport e), [.enableUnitFiles name])
      | .ok v =>
        if v ≠ "active" then
          let r := SystemCtl.StartService env name
          (r.1, .enableUnitFiles name :: r.2)
        else
          (.ok (), [.enableUnitFiles name])

/-- SystemCtl.DisableService (systemctl.go lines 169-197): connect, read the
unit's property map; if ActiveState is "active" return the result of
StopService instead; otherwise issue a disable-unit-files transaction. -/
def SystemCtl.DisableService (env : DbusEnv) (name : String) :
    Except SvcError Unit × List DbusAction :=
  match env.connect with
  | .error e => (.error (.transport e), [])
  | .ok _ =>
    match env.getProperties name with
    | .error e => (.error (.transport e), [])
    | .ok props =>
      if props "ActiveState" = some "active" then
        SystemCtl.StopService env name
      else
        match env.disableUnitFilesCall name with
        | .error e => (.error (.transport e), [.disableUnitFiles name])
        | .ok _ => (.ok (), [.disableUnitFiles name])

/-! ## C4 -/

lemma disable_not_mem_StopService (env : DbusEnv) (name m : String) :
    DbusAction.disableUnitFiles m ∉ (SystemCtl.StopService env name).2 := by
  unfold SystemCtl.StopService
  cases env.connect with
  | error e => simp
  | ok u => cases env.stopUnitResult name <;> simp

/-- C4: when DisableService reads ActiveState as "active" it returns
StopService's result without issuing a disable-unit-files transaction; the
disable transaction is issued exactly when ActiveState was confirmed not
"active". -/
theorem C4_disable_active_stops (env : DbusEnv) (name : String)
    (props : String → Option String)
    (hc : env.connect = .ok ())
    (hp : env.getProperties name = .ok props) :
    (props "ActiveState" = some "active" →
      SystemCtl.DisableService env name = SystemCtl.StopService env name
      ∧ DbusAction.disableUnitFiles name ∉ (SystemCtl.DisableService env name).2)
    ∧ (props "ActiveState" ≠ some "active" →
      DbusAction.disableUnitFiles name ∈ (SystemCtl.DisableService env name).2
      ∧ DbusAction.stopUnit name ∉ (SystemCtl.DisableService env name).2) := by
  constructor
  · intro ha
    have heq : SystemCtl.DisableService env name = SystemCtl.StopService env name := by
      simp [SystemCtl.DisableService, hc, hp, ha]
    refine ⟨heq, ?_⟩
    rw [heq]
    exact disable_not_mem_StopService env name name
  · intro ha
    have heq : SystemCtl.DisableService env name
        = match env.disableUnitFilesCall name with
          | .error e => (.error (.transport e), [.disableUnitFiles name])
          | .ok _ => (.ok (), [.disableUnitFiles name]) := by
      simp [SystemCtl.DisableService, hc, hp, ha]
    rw [heq]
    cases env.disableUnitFilesCall name <;> simp

/-- An environment where every unit reports ActiveState "active" and the
stop job completes with "done". -/
def c4Env : DbusEnv where
  connect := .ok ()
  startUnitResult := fun _ => .ok "done"
  stopUnitResult := fun _ => .ok "done"
  getProperty := fun _ _ => .ok "active"
  getProperties := fun _ => .ok (fun p => if p = "ActiveState" then some "active" else none)
  enableUnitFilesCall := fun _ => .ok ()
  disableUnitFilesCall := fun _ => .ok ()
  listUnitFiles := .ok []
  listUnitFilesByPatterns := fun _ => .ok []

/-- Witness for C4 at a concrete environment whose unit is active:
DisableService turns into the stop call and issues no disable. -/
theorem C4_disable_active_stops_witness :
    SystemCtl.DisableService c4Env "web.service" = SystemCtl.StopService c4Env "web.service"
    ∧ DbusAction.disableUnitFiles "web.service"
        ∉ (SystemCtl.DisableService c4Env "web.service").2 :=
  (C4_disable_active_stops c4Env "web.service"
    (fun p => if p = "ActiveState" then some "active" else none) rfl rfl).1 rfl

/-! ## C5 -/

/-- C5: when EnableService's enable transaction succeeds and the re-read
ActiveState is not "active", the call invokes StartService exactly once and
returns its result; when the re-read is "active", no start is issued and the
call succeeds. -/
theorem C5_enable_start_correction (env : DbusEnv) (name v : String)
    (hc : env.connect = .ok ())
    (he : env.enableUnitFilesCall name = .ok ())
    (hv : env.getProperty name "ActiveState" = .ok v) :
    (v ≠ "active" →
      (SystemCtl.EnableService env name).1 = (SystemCtl.StartService env name).1
      ∧ (SystemCtl.EnableService env name).2
          = DbusAction.enableUnitFiles name :: (SystemCtl.StartService env name).2
      ∧ ((SystemCtl.EnableService env name).2.filter
          (fun a => a = DbusAction.startUnit name)).length = 1)
    ∧ (v = "active" →
      SystemCtl.EnableService env name = (.ok (), [.enableUnitFiles name])) := by
  constructor
  · intro hne
    have heq : SystemCtl.EnableService env name
        = ((SystemCtl.StartService env name).1,
            DbusAction.enableUnitFiles name :: (SystemCtl.StartService env name).2) := by
      simp [SystemCtl.EnableService, hc, he, hv, hne]
    have htrace : (SystemCtl.StartService env name).2 = [.startUnit name] := by
      unfold SystemCtl.StartService
      rw [hc]
      cases env.startUnitResult name <;> simp
    refine ⟨by rw [heq], by rw [heq], ?_⟩
    rw [heq]
    simp [htrace]
  · intro ha
    simp [SystemCtl.EnableService, hc, he, hv, ha]

/-- An environment where the enable transaction succeeds, ActiveState reads
"inactive", and the start job completes with "done". -/
def c5Env : DbusEnv where
  connect := .ok ()
  startUnitResult := fun _ => .ok "done"
  stopUnitResult := fun _ => .ok "done"
  getProperty := fun _ _ => .ok "inactive"
  getProperties := fun _ => .ok (fun _ => none)
  enableUnitFilesCall := fun _ => .ok ()
  disableUnitFilesCall := fun _ => .ok ()
  listUnitFiles := .ok []
  listUnitFilesByPatterns := fun _ => .ok []

/-- Witness for C5 at a concrete environment whose unit stays inactive after
enabling: the start is issued exactly once and its result is returned. -/
theorem C5_enable_start_correction_witness :
    (SystemCtl.EnableService c5Env "web.service").1
        = (SystemCtl.StartService c5Env "web.service").1
    ∧ ((SystemCtl.EnableService c5Env "web.service").2.filter
        (fun a => a = DbusAction.startUnit "web.service")).length = 1 := by
  have h := (C5_enable_start_correction c5Env "web.service" "inactive" rfl rfl rfl).1
    (by decide)
  exact ⟨h.1, h.2.2⟩

/-! ## SystemCtl listing -/

/-- filepath.Base on slash-separated paths: "" gives "."; trailing slashes
are stripped; the segment after the last slash is returned; a path of only
slashes gives "/". -/
def filepathBase (path : String) : String :=
  if path = "" then
    "."
  else
    let stripped := (path.data.reverse.dropWhile (fun c => c = '/')).reverse
    let afterSlash := (stripped.reverse.takeWhile (fun c => c ≠ '/')).reverse
    if afterSlash = [] then "/" else String.mk afterSlash

/-- The unit-file listing call SystemCtl.ListServices performs (systemctl.go
lines 64-77): ListUnitFilesContext when the pattern is "" or "*", otherwise
ListUnitFilesByPatternsContext with the single pattern. -/
def listCall (env : DbusEnv) (pattern : String) : Except String (List String) :=
  if pattern = "" ∨ pattern = "*" then
    env.listUnitFiles
  else
    env.listUnitFilesByPatterns pattern

/-- The descriptor SystemCtl.ListServices builds for one unit file
(systemctl.go lines 81-90): the base name of the file path, and a running
flag that is true only when the per-unit probe succeeded and reported
running (`err == nil && running`). -/
def SystemCtl.describeUnitFile (env : DbusEnv) (file : String) : InitService :=
  let serviceName := filepathBase file
  { name := serviceName,
    running :=
      match SystemCtl.IsServiceRunning env serviceName with
      | .ok b => b
      | .error _ => false }

/-- SystemCtl.ListServices (systemctl.go lines 50-93): connect, list unit
files (optionally by pattern), and build one descriptor per unit file. -/
def SystemCtl.ListServices (env : DbusEnv) (pattern : String) :
    Except String (List InitService) :=
  match env.connect with
  | .error e => .error e
  | .ok _ =>
    match listCall env pattern with
    | .error e => .error e
    | .ok files => .ok (files.map (SystemCtl.describeUnitFile env))

/-! ## C7 -/

/-- C7: with the connection and the listing call succeeding, ListServices
returns one descriptor per unit file; a per-unit probe failure degrades that
entry to running = false instead of failing the listing; and an error can
only ever come from the connection or the listing call itself. -/
theorem C7_listing_probe_tolerance (env : DbusEnv) (pattern : String)
    (files : List String)
    (hc : env.connect = .ok ())
    (hl : listCall env pattern = .ok files) :
    (∃ svcs, SystemCtl.ListServices env pattern = .ok svcs
      ∧ svcs.map InitService.name = files.map filepathBase
      ∧ svcs.length = files.length
      ∧ (∀ file ∈ files, ∀ e,
          SystemCtl.IsServiceRunning env (filepathBase file) = .error e →
          InitService.mk (filepathBase file) false ∈ svcs))
    ∧ (∀ (env2 : DbusEnv) (pat : String) (e : String),
        SystemCtl.ListServices env2 pat = .error e →
        env2.connect = .error e ∨ listCall env2 pat = .error e) := by
  constructor
  · refine ⟨files.map (SystemCtl.describeUnitFile env), ?_, ?_, ?_, ?_⟩
    · simp [SystemCtl.ListServices, hc, hl]
    · simp only [List.map_map]
      apply List.map_congr_left
      intro file _
      simp [SystemCtl.describeUnitFile]
    · simp
    · intro file hf e hprobe
      have : SystemCtl.describeUnitFile env file = InitService.mk (filepathBase file) false := by
        simp [SystemCtl.describeUnitFile, hprobe]
      exact this ▸ List.mem_map_of_mem _ hf
  · intro env2 pat e h
    unfold SystemCtl.ListServices at h
    cases hc2 : env2.connect with
    | error e2 =>
      rw [hc2] at h
      simp at h
      subst h
      exact Or.inl rfl
    | ok u =>
      rw [hc2] at h
      cases hl2 : listCall env2 pat with
      | error e2 =>
        rw [hl2] at h
        simp at h
        subst h
        exact Or.inr rfl
      | ok fs =>
        rw [hl2] at h
        simp at h

/-- An environment with two unit files whose probes fail, listed without a
pattern. -/
def c7Env : DbusEnv where
  connect := .ok ()
  startUnitResult := fun _ => .ok "done"
  stopUnitResult := fun _ => .ok "done"
  getProperty := fun _ _ => .error "unit probe refused"
  getProperties := fun _ => .ok (fun _ => none)
  enableUnitFilesCall := fun _ => .ok ()
  disableUnitFilesCall := fun _ => .ok ()
  listUnitFiles := .ok ["/etc/systemd/system/a.service", "/etc/systemd/system/b.service"]
  listUnitFilesByPatterns := fun _ => .ok []

/-- Witness for C7 at a concrete environment whose per-unit probes all fail:
the listing still succeeds with one descriptor per unit file. -/
theorem C7_listing_probe_tolerance_witness :
    ∃ svcs, SystemCtl.ListServices c7Env "" = .ok svcs
      ∧ svcs.map InitService.name = ["a.service", "b.service"]
      ∧ svcs.length = 2 := by
  obtain ⟨svcs, hok, hnames, hlen, -⟩ :=
    (C7_listing_probe_tolerance c7Env ""
      ["/etc/systemd/system/a.service", "/etc/systemd/system/b.service"] rfl rfl).1
  exact ⟨svcs, hok, by rw [hnames]; decide, hlen.trans (by decide)⟩

/-! ## C6 -/

/-- Boolean reading of the abstract glob matcher: true exactly when the
matcher succeeds and reports a match. -/
def globOk (glob : String → String → Except Unit Bool) (pattern n : String) : Bool :=
  match glob pattern n with
  | .ok b => b
  | .error _ => false

lemma filterLoop_ok (glob : String → String → Except Unit Bool) (pattern : String) :
    ∀ l : List String, (∀ n ∈ l, ∃ b, glob pattern n = .ok b) →
      OpenRc.filterLoop glob pattern l = .ok (l.filter (globOk glob pattern)) := by
  intro l
  induction l with
  | nil => intro _; rfl
  | cons n rest ih =>
    intro h
    obtain ⟨b, hb⟩ := h n (List.mem_cons_self n rest)
    have ih2 := ih (fun m hm => h m (List.mem_cons_of_mem n hm))
    have hok : globOk glob pattern n = b := by simp [globOk, hb]
    cases b with
    | true => simp [OpenRc.filterLoop, hb, ih2, List.filter_cons, hok]
    | false => simp [OpenRc.filterLoop, hb, ih2, List.filter_cons, hok]

lemma statusLoop_ok (env : RcEnv)
    (hs : ∀ n, ∃ b, RcServiceStatus env n = .ok b) :
    ∀ l : List String, ∃ svcs, OpenRc.statusLoop env l = .ok svcs
      ∧ svcs.map InitService.name = l := by
  intro l
  induction l with
  | nil => exact ⟨[], rfl, rfl⟩
  | cons n rest ih =>
    obtain ⟨svcs, hok, hnames⟩ := ih
    obtain ⟨b, hb⟩ := hs n
    refine ⟨{ name := n, running := b } :: svcs, ?_, ?_⟩
    · simp [OpenRc.statusLoop, hb, hok]
    · simp [hnames]

lemma map_describe_names (env : DbusEnv) (files : List String) :
    (files.map (SystemCtl.describeUnitFile env)).map InitService.name
      = files.map filepathBase := by
  simp only [List.map_map]
  apply List.map_congr_left
  intro file _
  simp [SystemCtl.describeUnitFile]

lemma map_filter_comm (f : String → String) (p : String → Bool) (l : List String) :
    (l.filter (fun a => p (f a))).map f = (l.map f).filter p := by
  induction l with
  | nil => rfl
  | cons a l ih =>
    by_cases h : p (f a) = true
    · simp [List.filter_cons, h, ih]
    · simp [List.filter_cons, h, ih]

/-- C6: for the pattern "" or "*" both backends list every known unit with
no filtering; for any other pattern the returned names are exactly the
glob-matching subset of the unfiltered names.  The OpenRc filtering happens
in the code's own loop over the abstract matcher; the SystemCtl filtering is
delegated to the daemon's by-pattern listing, which per the spec returns
exactly the matching unit files. -/
theorem C6_pattern_filtering
    (renv : RcEnv) (glob : String → String → Except Unit Bool)
    (pattern : String) (svcList : List String)
    (hlist : RcServiceList renv = .ok svcList)
    (hstatus : ∀ n, ∃ b, RcServiceStatus renv n = .ok b)
    (hglob : ∀ n ∈ svcList, ∃ b, glob pattern n = .ok b)
    (denv : DbusEnv) (files : List String)
    (hc : denv.connect = .ok ())
    (hfiles : denv.listUnitFiles = .ok files)
    (hpat : denv.listUnitFilesByPatterns pattern
      = .ok (files.filter (fun f => globOk glob pattern (filepathBase f)))) :
    ((pattern = "" ∨ pattern = "*") →
      (∃ svcs, OpenRc.ListServices renv glob pattern = .ok svcs
        ∧ svcs.map InitService.name = svcList)
      ∧ (∃ svcs, SystemCtl.ListServices denv pattern = .ok svcs
        ∧ svcs.map InitService.name = files.map filepathBase))
    ∧ (pattern ≠ "" → pattern ≠ "*" →
      (∃ svcs, OpenRc.ListServices renv glob pattern = .ok svcs
        ∧ svcs.map InitService.name = svcList.filter (globOk glob pattern))
      ∧ (∃ svcs, SystemCtl.ListServices denv pattern = .ok svcs
        ∧ svcs.map InitService.name
            = (files.map filepathBase).filter (globOk glob pattern))) := by
  constructor
  · intro hp
    constructor
    · have hcond : ¬(pattern ≠ "" ∧ pattern ≠ "*") := by
        rcases hp with h | h <;> simp [h]
      obtain ⟨svcs, hok, hnames⟩ := statusLoop_ok renv hstatus svcList
      refine ⟨svcs, ?_, hnames⟩
      simp [OpenRc.ListServices, hlist, hcond, hok]
    · refine ⟨files.map (SystemCtl.describeUnitFile denv), ?_, map_describe_names denv files⟩
      have hl : listCall denv pattern = .ok files := by
        simp [listCall, hp, hfiles]
      simp [SystemCtl.ListServices, hc, hl]
  · intro h1 h2
    constructor
    · have hcond : pattern ≠ "" ∧ pattern ≠ "*" := ⟨h1, h2⟩
      have hfl := filterLoop_ok glob pattern svcList hglob
      obtain ⟨svcs, hok, hnames⟩ :=
        statusLoop_ok renv hstatus (svcList.filter (globOk glob pattern))
      refine ⟨svcs, ?_, hnames⟩
      simp [OpenRc.ListServices, hlist, hcond, hfl, hok]
    · have hl : listCall denv pattern
          = .ok (files.filter (fun f => globOk glob pattern (filepathBase f))) := by
        simp [listCall, h1, h2, hpat]
      refine ⟨(files.filter (fun f => globOk glob pattern (filepathBase f))).map
        (SystemCtl.describeUnitFile denv), ?_, ?_⟩
      · simp [SystemCtl.ListServices, hc, hl]
      · rw [map_describe_names, map_filter_comm]

/-- A command-based environment whose every invocation succeeds with empty
output; its known-unit list is the single name "[]". -/
def c6Renv : RcEnv where
  rcservice := fun _ => .ok []

/-- A matcher accepting every name. -/
def c6Glob : String → String → Except Unit Bool := fun _ _ => .ok true

/-- Witness for C6 at concrete environments and the concrete pattern "a*":
both backends return exactly the glob-matching subset. -/
theorem C6_pattern_filtering_witness :
    (∃ svcs, OpenRc.ListServices c6Renv c6Glob "a*" = .ok svcs
      ∧ svcs.map InitService.name = ["[]"].filter (globOk c6Glob "a*"))
    ∧ (∃ svcs, SystemCtl.ListServices c1Env "a*" = .ok svcs
      ∧ svcs.map InitService.name
          = (List.map filepathBase []).filter (globOk c6Glob "a*")) := by
  exact (C6_pattern_filtering c6Renv c6Glob "a*" ["[]"] (by decide)
    (fun n => ⟨true, rfl⟩) (fun n _ => ⟨true, rfl⟩) c1Env [] rfl rfl rfl).2
    (by decide) (by decide)

end InitSystem
